import Mathlib

/-!
Verification development for the vm0 microVM sandbox runner.

Each Rust function relevant to the verified properties is shallowly embedded
as an executable Lean definition.  Stateful loops are embedded as functions
over an explicit list of the observable events of each loop iteration
(syscall returns, HTTP outcomes, timer ticks), and syscall or network
results that the code consumes become parameters of the embedding.
-/

namespace VM0

/- ------------------------------------------------------------------------
§1  Guest network configuration
    (crates/sandbox-fc/src/network/guest.rs)
------------------------------------------------------------------------- -/

/-- Fixed guest-facing network configuration inside each namespace
(struct GuestNetwork in guest.rs). -/
structure GuestNetwork where
  tap_name : String
  guest_mac : String
  guest_ip : String
  gateway_ip : String
  netmask : String
  prefix_len : Nat
deriving DecidableEq

/-- The constant GUEST_NETWORK of guest.rs. -/
def GUEST_NETWORK : GuestNetwork :=
  { tap_name := "vm0-tap"
    guest_mac := "02:00:00:00:00:01"
    guest_ip := "192.168.241.2"
    gateway_ip := "192.168.241.1"
    netmask := "255.255.255.248"
    prefix_len := 29 }

/-- generate_guest_network_boot_args of guest.rs: the format! call
producing the ip= kernel argument from GUEST_NETWORK. -/
def generate_guest_network_boot_args : String :=
  "ip=" ++ GUEST_NETWORK.guest_ip ++ "::" ++ GUEST_NETWORK.gateway_ip ++ ":" ++
    GUEST_NETWORK.netmask ++ ":vm0-guest:eth0:off"

/-- generate_boot_args of guest.rs: base kernel flags followed by the
network segment.  The Rust source writes the base flags as one string
literal with line continuations, which join with single spaces. -/
def generate_boot_args : String :=
  "console=ttyS0 reboot=k panic=1 pci=off nomodules random.trust_cpu=on " ++
    "quiet loglevel=0 nokaslr audit=0 numa=off mitigations=off noresume " ++
    "init=/sbin/guest-init " ++ generate_guest_network_boot_args

/- ------------------------------------------------------------------------
§2  Benchmark exit-code propagation
    (crates/runner/src/benchmark.rs, step 6 of run_benchmark)
------------------------------------------------------------------------- -/

/-- Rust u8::try_from on an i32/i64 exit code: succeeds exactly when the
value lies in 0..=255. -/
def u8_try_from (v : Int) : Option Nat :=
  if 0 ≤ v ∧ v ≤ 255 then some v.toNat else none

/-- Step 6 of run_benchmark in benchmark.rs: the process exit code that the
benchmark command returns for a VM command whose exit code was
exit_code.  On a failed u8::try_from the code logs a warning and uses 1. -/
def benchmark_exit_code (exit_code : Int) : Nat :=
  match u8_try_from exit_code with
  | some c => c
  | none => 1

/- ------------------------------------------------------------------------
§3  systemd service surface
    (crates/runner/src/cmd/service.rs)
------------------------------------------------------------------------- -/

/-- The RunnerError variants used by service.rs (crates/runner/src/error.rs).
Only the variants this development needs are materialised. -/
inductive RunnerError
  | Config (msg : String)
  | Internal (msg : String)
deriving DecidableEq

/-- The per-byte validation in unit_name: b.is_ascii_alphanumeric()
or one of the bytes . - _ . -/
def allowed_unit_byte (c : Char) : Bool :=
  (('0' ≤ c && c ≤ '9') || ('a' ≤ c && c ≤ 'z') || ('A' ≤ c && c ≤ 'Z')) ||
    c == '.' || c == '-' || c == '_'

/-- unit_name of service.rs: rejects an empty suffix or any byte outside
the allowed set, else prepends the prefix string vm0-runner-.
The Rust error message interpolates the suffix; the embedding uses a fixed
message since no claim depends on the interpolation. -/
def unit_name (suffix : List Char) : Except RunnerError (List Char) :=
  if suffix.isEmpty || !(suffix.all allowed_unit_byte) then
    Except.error (RunnerError.Config
      "invalid service name suffix: only alphanumeric, period, dash, underscore allowed")
  else
    Except.ok ("vm0-runner-".toList ++ suffix)

/-- Observable systemd-facing side effects of the service subcommands. -/
inductive SysOp
  | systemctl (args : List String)
  | systemdRun
  | sudoTee
  | journalctl
  | sigusr1
deriving DecidableEq

/-- The seven subcommands of run_service in service.rs. -/
inductive ServiceCommandKind
  | start | stop | install | uninstall | drain | status | logs
deriving DecidableEq

/-- run_service of service.rs, for an invocation that supplies a service
name suffix.  Every handler (start, stop, install, uninstall, drain, logs,
and status when --name is given) begins with
let unit = unit_name(name)? before touching systemd, so the embedding
validates first and abstracts the post-validation behaviour of each handler
as the continuation rest. -/
def run_service (cmd : ServiceCommandKind) (name : List Char)
    (rest : ServiceCommandKind → List Char → List SysOp × Except RunnerError Unit) :
    List SysOp × Except RunnerError Unit :=
  match unit_name name with
  | Except.error e => ([], Except.error e)
  | Except.ok unit => rest cmd unit

/- ------------------------------------------------------------------------
§4  Guest-agent heartbeat loop
    (crates/guest-agent/src/heartbeat.rs)
------------------------------------------------------------------------- -/

/-- AgentError of crates/guest-agent/src/error.rs. -/
inductive AgentError
  | Http (msg : String)
  | Io (msg : String)
  | Json (msg : String)
  | Execution (msg : String)
  | Checkpoint (msg : String)
deriving DecidableEq

/-- One iteration of the select! in heartbeat_loop: either the shutdown
token fired, or the interval ticked and the heartbeat POST completed with
the given result (the Ok payload of post_json is irrelevant here). -/
inductive HbEvent
  | cancelled
  | tick (result : Except AgentError Unit)

/-- heartbeat_loop of heartbeat.rs over the sequence of iteration events.
Returns none while the event list is exhausted with the loop still
running, and some r when the loop returns r.  The is_first flag
mirrors the local is_first variable. -/
def heartbeat_loop (is_first : Bool) : List HbEvent → Option (Except AgentError Unit)
  | [] => none
  | HbEvent.cancelled :: _ => some (Except.ok ())
  | HbEvent.tick (Except.ok _) :: rest => heartbeat_loop false rest
  | HbEvent.tick (Except.error _) :: rest =>
    if is_first then
      some (Except.error (AgentError.Execution
        "Network connectivity check failed - cannot reach API"))
    else
      heartbeat_loop is_first rest

/- ------------------------------------------------------------------------
§5  Firecracker API readiness polling
    (crates/sandbox-fc/src/api.rs; the spec designates this client, the
    keep-alive one with Content-Length framing, as authoritative)
------------------------------------------------------------------------- -/

/-- The std::io::ErrorKind values that matter to is_retryable; every
other kind is collapsed into otherKind. -/
inductive IoErrorKind
  | connectionRefused
  | permissionDenied
  | notFound
  | otherKind
deriving DecidableEq

/-- ApiError of api.rs: connect failure (with its io::ErrorKind),
non-2xx HTTP response, or other failure. -/
inductive ApiError
  | Connect (kind : IoErrorKind)
  | Http (status : Nat) (body : String)
  | Other (msg : String)
deriving DecidableEq

/-- ApiError::is_retryable of api.rs: a Connect error is retryable exactly
when its kind is ConnectionRefused; Http and Other are always retryable. -/
def is_retryable : ApiError → Bool
  | ApiError.Connect k => k == IoErrorKind.connectionRefused
  | ApiError.Http _ _ => true
  | ApiError.Other _ => true

/-- One iteration of phase 2 of wait_for_ready: the timeout_at either
expired (deadline) or delivered the result of request GET /. -/
inductive PollAttempt
  | deadline
  | completed (r : Except ApiError String)

/-- Phase 2 of ApiClient::wait_for_ready in api.rs, over the sequence of
poll attempts.  Returns the list of sleeps performed (in milliseconds, one
10 per retry) together with the loop result; none means the modelled
event list ran out with the loop still polling. -/
def wait_for_ready_phase2 : List PollAttempt → List Nat × Option (Except ApiError Unit)
  | [] => ([], none)
  | PollAttempt.deadline :: _ =>
    ([], some (Except.error (ApiError.Other "timed out waiting for API ready")))
  | PollAttempt.completed (Except.ok _) :: _ => ([], some (Except.ok ()))
  | PollAttempt.completed (Except.error e) :: rest =>
    if is_retryable e then
      let out := wait_for_ready_phase2 rest
      (10 :: out.1, out.2)
    else
      ([], some (Except.error e))

/- ------------------------------------------------------------------------
§6  PID-1 supervisor: zombie reaping and blocking wait
    (crates/guest-init/src/pid1.rs)
------------------------------------------------------------------------- -/

/-- Reinterpret the low byte of a Nat as a signed 8-bit value
(the Rust as i8 cast). -/
def as_i8 (n : Nat) : Int :=
  let m := n % 256
  if m < 128 then (m : Int) else (m : Int) - 256

/-- libc::WTERMSIG on Linux: status & 0x7f. -/
def WTERMSIG (status : Nat) : Nat := status % 128

/-- libc::WEXITSTATUS on Linux: (status >> 8) & 0xff. -/
def WEXITSTATUS (status : Nat) : Nat := (status / 256) % 256

/-- libc::WIFEXITED on Linux: (status & 0x7f) == 0. -/
def WIFEXITED (status : Nat) : Bool := status % 128 == 0

/-- libc::WIFSIGNALED on Linux (libc crate):
((status & 0x7f) + 1) as i8 >= 2. -/
def WIFSIGNALED (status : Nat) : Bool := decide (2 ≤ as_i8 (status % 128 + 1))

/-- The exit-code propagation shared by wait_blocking and reap_zombies in
pid1.rs: WEXITSTATUS for a normal exit, 128 + WTERMSIG for signal death,
1 otherwise. -/
def propagate_exit (status : Nat) : Int :=
  if WIFEXITED status then (WEXITSTATUS status : Int)
  else if WIFSIGNALED status then 128 + (WTERMSIG status : Int)
  else 1

/-- reap_zombies of pid1.rs over the successive returns of
waitpid(-1, WNOHANG): each pair is (result, *status).  result <= 0 breaks
the loop (no more zombies, or ECHILD); reaping the watched pid returns its
propagated exit code; any other reaped pid is discarded and the loop
continues. -/
def reap_zombies (watched_pid : Int) : List (Int × Nat) → Option Int
  | [] => none
  | (result, status) :: rest =>
    if result ≤ 0 then none
    else if result = watched_pid then some (propagate_exit status)
    else reap_zombies watched_pid rest

/-- One return of the blocking waitpid(pid, 0) in wait_blocking: either it
reaped the pid (delivering *status), or it failed with the given errno. -/
inductive WaitAttempt
  | success (status : Nat)
  | failure (errno : Nat)
deriving DecidableEq

/-- Linux errno EINTR. -/
def EINTR : Nat := 4

/-- wait_blocking of pid1.rs over the successive returns of
waitpid(pid, 0): success returns the propagated exit code; a failure with
errno EINTR retries; any other failure gives up with 1.  none means the
modelled return list ran out with the loop still blocked. -/
def wait_blocking (pid : Int) : List WaitAttempt → Option Int
  | [] => none
  | WaitAttempt.success status :: _ => some (propagate_exit status)
  | WaitAttempt.failure errno :: rest =>
    if errno ≠ EINTR then some 1 else wait_blocking pid rest

/- ------------------------------------------------------------------------
§7  Guest-agent artifact upload protocol
    (crates/guest-agent/src/artifact.rs, create_snapshot)
------------------------------------------------------------------------- -/

/-- One (path, hash, size) entry of the prepare file list. -/
structure FileEntry where
  path : String
  hash : String
  size : Nat
deriving DecidableEq

/-- UploadInfo of artifact.rs: a presigned URL. -/
structure UploadInfo where
  presigned_url : String
deriving DecidableEq

/-- Uploads of artifact.rs. -/
structure Uploads where
  archive : Option UploadInfo
  manifest : Option UploadInfo
deriving DecidableEq

/-- PrepareResponse of artifact.rs (every field serde-optional). -/
structure PrepareResponse where
  version_id : Option String
  existing : Option Bool
  uploads : Option Uploads
deriving DecidableEq

/-- CommitResponse of artifact.rs: the optional success field. -/
structure CommitResponse where
  success : Option Bool
deriving DecidableEq

/-- SnapshotResult of artifact.rs. -/
structure SnapshotResult where
  version_id : String
deriving DecidableEq

/-- The network operations create_snapshot can perform, in order. -/
inductive NetOp
  | postPrepare
  | postCommit
  | putArchive
  | putManifest
deriving DecidableEq

/-- The result of one http::post_json call as create_snapshot consumes it:
transport-level failure, empty response, or a JSON value handed to serde
(whose parse may fail, the inner Except). -/
def PostJsonOutcome (α : Type) := Except AgentError (Option (Except String α))

/-- How create_snapshot folds a commit response: a missing body or a serde
parse failure both become CommitResponse with success = none
(the .map(parse).unwrap_or chain with its unwrap_or_else in the parser). -/
def commit_success : Option (Except String CommitResponse) → Option Bool
  | none => none
  | some (Except.error _) => none
  | some (Except.ok c) => c.success

/-- create_snapshot of artifact.rs, with the I/O steps as parameters:
prep is the POST /storages/prepare outcome, dedup_commit the POST
/storages/commit outcome taken in the deduplicated branch, archive_ok
whether tar succeeded, archive_put / manifest_put the presigned S3 PUT
outcomes, and final_commit the closing POST /storages/commit outcome.
Returns the ordered network-operation trace and the function result.
File hashing (step 1) and the temp-file writes have no bearing on the
verified properties and are not represented. -/
def create_snapshot (prep : PostJsonOutcome PrepareResponse)
    (dedup_commit : PostJsonOutcome CommitResponse)
    (archive_ok : Bool)
    (archive_put : Except AgentError Unit)
    (manifest_put : Except AgentError Unit)
    (final_commit : PostJsonOutcome CommitResponse) :
    List NetOp × Except AgentError SnapshotResult :=
  let ops : List NetOp := [NetOp.postPrepare]
  match prep with
  | Except.error e => (ops, Except.error e)
  | Except.ok none => (ops, Except.error (AgentError.Checkpoint "Empty prepare response"))
  | Except.ok (some (Except.error e)) => (ops, Except.error (AgentError.Checkpoint e))
  | Except.ok (some (Except.ok p)) =>
    match p.version_id with
    | none => (ops, Except.error (AgentError.Checkpoint "No versionId in prepare response"))
    | some version_id =>
      if p.existing.getD false then
        let ops := ops ++ [NetOp.postCommit]
        match dedup_commit with
        | Except.error e => (ops, Except.error e)
        | Except.ok resp =>
          if commit_success resp = some true then
            (ops, Except.ok { version_id := version_id })
          else
            (ops, Except.error (AgentError.Checkpoint "Failed to update HEAD"))
      else
        match p.uploads with
        | none => (ops, Except.error (AgentError.Checkpoint "No upload URLs in prepare response"))
        | some uploads =>
          match uploads.archive with
          | none => (ops, Except.error (AgentError.Checkpoint "No archive upload info"))
          | some _ =>
            match uploads.manifest with
            | none => (ops, Except.error (AgentError.Checkpoint "No manifest upload info"))
            | some _ =>
              if !archive_ok then
                (ops, Except.error (AgentError.Checkpoint "Failed to create archive"))
              else
                let ops := ops ++ [NetOp.putArchive]
                match archive_put with
                | Except.error e => (ops, Except.error e)
                | Except.ok _ =>
                  let ops := ops ++ [NetOp.putManifest]
                  match manifest_put with
                  | Except.error e => (ops, Except.error e)
                  | Except.ok _ =>
                    let ops := ops ++ [NetOp.postCommit]
                    match final_commit with
                    | Except.error e => (ops, Except.error e)
                    | Except.ok resp =>
                      if commit_success resp = some true then
                        (ops, Except.ok { version_id := version_id })
                      else
                        (ops, Except.error (AgentError.Checkpoint "Commit failed"))

/- ------------------------------------------------------------------------
§8  GC sweeper
    (crates/runner/src/cmd/gc.rs)
------------------------------------------------------------------------- -/

/-- A filesystem node as dir_stats observes it: every entry carries
st_blocks and an mtime; directories also have children that the explicit
stack visits. -/
inductive FsNode
  | file (blocks : Nat) (mtime : Nat)
  | dir (blocks : Nat) (mtime : Nat) (children : List FsNode)

/-- The running total of dir_stats: every visited entry (files and
directories alike) contributes meta.blocks() * 512. -/
def du_total : List FsNode → Nat
  | [] => 0
  | FsNode.file b _ :: rest => b * 512 + du_total rest
  | FsNode.dir b _ cs :: rest => b * 512 + du_total cs + du_total rest

/-- The latest-mtime computation of dir_stats, starting from UNIX_EPOCH
(modelled as 0) and taking the strict maximum over every visited entry. -/
def du_latest : List FsNode → Nat
  | [] => 0
  | FsNode.file _ t :: rest => max t (du_latest rest)
  | FsNode.dir _ t cs :: rest => max t (max (du_latest cs) (du_latest rest))

/-- dir_stats of gc.rs on the children of a hash directory: total disk
usage (st_blocks * 512) and latest mtime.  The source's explicit stack
visits the same set of entries, and sum and max are order-independent. -/
def dir_stats (children : List FsNode) : Nat × Nat :=
  (du_total children, du_latest children)

/-- The state of a hash directory's companion flock at probe time:
free, held shared by a user, held exclusively by a builder, or a lock
file that cannot be opened. -/
inductive LockState
  | free
  | heldShared
  | heldExclusive
  | unprobeable (msg : String)
deriving DecidableEq

/-- LockProbe of gc.rs. -/
inductive LockProbe
  | freeAcquired
  | held
  | probeFailed (msg : String)
deriving DecidableEq

/-- probe_lock of gc.rs: Flock::lock(file, LockExclusiveNonblock) succeeds
on a free lock; the kernel answers EWOULDBLOCK when another process holds
the flock shared or exclusive, which probe_lock maps to Held; an unopenable
lock file maps to Error. -/
def probe_lock : LockState → LockProbe
  | LockState.free => LockProbe.freeAcquired
  | LockState.heldShared => LockProbe.held
  | LockState.heldExclusive => LockProbe.held
  | LockState.unprobeable m => LockProbe.probeFailed m

/-- One entry of the artifact directory as the gc_dir scan sees it:
its hash (the file name), its lock's state, and its contents. -/
structure DirEntry where
  hash : String
  lock : LockState
  content : List FsNode

/-- GcCandidate of gc.rs (the held Flock guard is represented by the
candidate's presence in this list). -/
structure GcCandidate where
  hash : String
  size : Nat
  mtime : Nat
deriving DecidableEq

/-- The scan loop of gc_dir: probe each entry's lock and record
(path, hash, size, mtime) for the free ones, with size and mtime from
dir_stats. -/
def scan_candidates (entries : List DirEntry) : List GcCandidate :=
  entries.filterMap fun e =>
    match probe_lock e.lock with
    | LockProbe.freeAcquired =>
      some { hash := e.hash, size := (dir_stats e.content).1, mtime := (dir_stats e.content).2 }
    | LockProbe.held => none
    | LockProbe.probeFailed _ => none

/-- The comparator of candidates.sort_by in gc_dir:
b.mtime.cmp(a.mtime), i.e. newest first. -/
def mtime_desc (a b : GcCandidate) : Bool := decide (b.mtime ≤ a.mtime)

/-- The observable events of one gc_dir run, in program order: one probe
outcome per scanned entry, then keep/delete decisions, then the release of
every held lock when the candidate vector drops at the end of gc_dir. -/
inductive GcEvent
  | acquire (hash : String)
  | skipHeld (hash : String)
  | skipErr (hash : String)
  | keep (hash : String)
  | deleteDir (hash : String)
  | release (hash : String)
deriving DecidableEq

/-- Result of one gc_dir run. -/
structure GcOutcome where
  freed : Nat
  deleted : List String
  trace : List GcEvent
deriving DecidableEq

/-- gc_dir of gc.rs: scan entries and lock-probe each; sort the free
candidates by mtime descending (Rust's stable sort_by); keep the first
keep_latest.unwrap_or(0); delete the rest unless dry_run, accumulating
freed += size either way; the candidate locks are released when the
function returns. -/
def gc_dir (entries : List DirEntry) (keep_latest : Option Nat) (dry_run : Bool) : GcOutcome :=
  let cands := scan_candidates entries
  let scanTrace := entries.map fun e =>
    match probe_lock e.lock with
    | LockProbe.freeAcquired => GcEvent.acquire e.hash
    | LockProbe.held => GcEvent.skipHeld e.hash
    | LockProbe.probeFailed _ => GcEvent.skipErr e.hash
  let sorted := cands.mergeSort mtime_desc
  let keep_count := keep_latest.getD 0
  let victims := sorted.drop keep_count
  { freed := (victims.map GcCandidate.size).sum
    deleted := if dry_run then [] else victims.map GcCandidate.hash
    trace := scanTrace
      ++ (sorted.take keep_count).map (fun c => GcEvent.keep c.hash)
      ++ (if dry_run then [] else victims.map (fun c => GcEvent.deleteDir c.hash))
      ++ sorted.map (fun c => GcEvent.release c.hash) }

/- ------------------------------------------------------------------------
§9  Firecracker HTTP response framing
    (crates/sandbox-fc/src/api.rs, ApiClient::request, lines 291-368)

The response stream is modelled as the list of characters the server
writes on the socket (HTTP headers are ASCII; from_utf8_lossy is the
identity there).  The phase-1 read loop leaves the buffer as some prefix
stream.take bufLen of the stream; the prefix length is a parameter of the
embedding since read_buf chunking is scheduler-dependent.
------------------------------------------------------------------------- -/

/-- The literal the read loop searches for. -/
def crlf2 : List Char := ['\r', '\n', '\r', '\n']

/-- Whether the first argument is an initial segment of the second. -/
def starts_with : List Char → List Char → Bool
  | [], _ => true
  | _ :: _, [] => false
  | p :: ps, c :: cs => p == c && starts_with ps cs

/-- Index of the first occurrence of pat in a list (str::find on a
substring pattern). -/
def find_sub (pat : List Char) : List Char → Option Nat
  | [] => if starts_with pat [] then some 0 else none
  | c :: rest =>
    if starts_with pat (c :: rest) then some 0
    else (find_sub pat rest).map (· + 1)

/-- response.find of the header terminator with .unwrap_or(response.len()). -/
def header_end_of (resp : List Char) : Nat :=
  (find_sub crlf2 resp).getD resp.length

/-- u8::is_ascii_digit. -/
def is_ascii_digit (c : Char) : Bool := '0' ≤ c && c ≤ '9'

/-- Decimal value of a digit string. -/
def digits_to_nat (cs : List Char) : Nat :=
  cs.foldl (fun acc c => acc * 10 + (c.toNat - '0'.toNat)) 0

/-- Rust str::parse for an unsigned integer type with maximum maxVal:
an optional leading plus sign, then one or more ASCII digits, no other
characters, and the value must fit. -/
def parse_unsigned (cs : List Char) (maxVal : Nat) : Option Nat :=
  let ds := match cs with
    | '+' :: rest => rest
    | _ => cs
  if ds.isEmpty then none
  else if ds.all is_ascii_digit then
    let v := digits_to_nat ds
    if v ≤ maxVal then some v else none
  else none

/-- The status-code parse of ApiClient::request:
response.get(9..12).and_then(parse u16).unwrap_or(0).
The byte-range get yields None when the buffer is shorter than 12. -/
def status_of (resp : List Char) : Nat :=
  if 12 ≤ resp.length then
    (parse_unsigned ((resp.drop 9).take 3) 65535).getD 0
  else 0

/-- str::lines step 1: split at every newline character, no trailing empty
line for a trailing newline. -/
def split_nl : List Char → List (List Char)
  | [] => []
  | c :: cs =>
    if c = '\n' then [] :: split_nl cs
    else
      match split_nl cs with
      | [] => [[c]]
      | l :: ls => (c :: l) :: ls

/-- str::lines step 2: a final carriage return belongs to the line
terminator and is stripped. -/
def strip_cr (l : List Char) : List Char :=
  if l.getLast? = some '\r' then l.dropLast else l

/-- str::lines. -/
def lines_of (s : List Char) : List (List Char) :=
  (split_nl s).map strip_cr

/-- str::split_once at the first colon. -/
def split_once_colon (l : List Char) : Option (List Char × List Char) :=
  if l.contains ':' then
    some (l.takeWhile (fun c => c != ':'), (l.dropWhile (fun c => c != ':')).tail)
  else none

/-- The whitespace class of str::trim, restricted to the ASCII
whitespace that occurs in HTTP headers. -/
def is_rust_ws (c : Char) : Bool := c == ' ' || c == '\t' || c == '\n' || c == '\r'

/-- str::trim. -/
def trim_chars (l : List Char) : List Char :=
  ((l.dropWhile is_rust_ws).reverse.dropWhile is_rust_ws).reverse

/-- Char::to_ascii_lowercase. -/
def to_ascii_lower (c : Char) : Char :=
  if 'A' ≤ c && c ≤ 'Z' then Char.ofNat (c.toNat + 32) else c

/-- str::eq_ignore_ascii_case: equal length and bytewise equality after
ASCII lowercasing. -/
def eq_ignore_ascii_case : List Char → List Char → Bool
  | [], [] => true
  | a :: xs, b :: ys => to_ascii_lower a == to_ascii_lower b && eq_ignore_ascii_case xs ys
  | _, _ => false

/-- The header name the client matches. -/
def cl_key : List Char := "content-length".toList

/-- usize::MAX on the 64-bit targets the runner builds for. -/
def USIZE_MAX : Nat := 2 ^ 64 - 1

/-- The find_map body of the Content-Length scan: split the line at the
first colon, compare the trimmed key case-insensitively with
content-length, and parse the trimmed value as usize. -/
def line_content_length (line : List Char) : Option Nat :=
  match split_once_colon line with
  | none => none
  | some (key, value) =>
    if eq_ignore_ascii_case (trim_chars key) cl_key then
      parse_unsigned (trim_chars value) USIZE_MAX
    else none

/-- The Content-Length parse of ApiClient::request over the header block
response.get(..header_end), defaulting to 0. -/
def content_length_of (resp : List Char) : Nat :=
  ((lines_of (resp.take (header_end_of resp))).findSome? line_content_length).getD 0

/-- The failures of the response-handling part of ApiClient::request.
For the http case the raw body is carried; the source additionally maps
it through a fault_message JSON extraction before surfacing it. -/
inductive HttpFailure
  | readBody (msg : String)
  | http (status : Nat) (rawBody : List Char)

/-- The final status check of ApiClient::request:
(200..300).contains(status) yields the body, anything else the error. -/
def http_finish (status : Nat) (body : List Char) : Except HttpFailure (List Char) :=
  if 200 ≤ status ∧ status < 300 then Except.ok body
  else Except.error (HttpFailure.http status body)

/-- The response-handling tail of ApiClient::request.  stream is what the
server writes; the phase-1 loop has read buf = stream.take bufLen.
Status, header end and Content-Length are computed on buf; if fewer than
Content-Length body bytes are buffered, read_exact consumes the remainder
from the stream (failing when the stream is too short); the body is
buf.get(body_start..body_start + content_length).unwrap_or_default(). -/
def request_parse (stream : List Char) (bufLen : Nat) : Except HttpFailure (List Char) :=
  let buf := stream.take bufLen
  let he := header_end_of buf
  let status := status_of buf
  let cl := content_length_of buf
  let body_start := he + 4
  if 0 < cl then
    let already_read := buf.length - body_start
    if already_read < cl then
      let remaining := cl - already_read
      if stream.length < buf.length + remaining then
        Except.error (HttpFailure.readBody "read body: unexpected end of stream")
      else
        let buf2 := stream.take (buf.length + remaining)
        http_finish status
          (if body_start + cl ≤ buf2.length then (buf2.drop body_start).take cl else [])
    else
      http_finish status
        (if body_start + cl ≤ buf.length then (buf.drop body_start).take cl else [])
  else
    http_finish status []

/- ------------------------------------------------------------------------
Theorems
------------------------------------------------------------------------- -/

/-- Claim C8: generate_boot_args always returns exactly the fixed kernel
command line, whose ip= segment substitutes the GUEST_NETWORK guest IP,
gateway IP, and /29 netmask. -/
theorem c8_boot_args :
    generate_boot_args =
      "console=ttyS0 reboot=k panic=1 pci=off nomodules random.trust_cpu=on quiet loglevel=0 nokaslr audit=0 numa=off mitigations=off noresume init=/sbin/guest-init ip=192.168.241.2::192.168.241.1:255.255.255.248:vm0-guest:eth0:off" ∧
    generate_guest_network_boot_args =
      "ip=" ++ GUEST_NETWORK.guest_ip ++ "::" ++ GUEST_NETWORK.gateway_ip ++ ":" ++
        GUEST_NETWORK.netmask ++ ":vm0-guest:eth0:off" ∧
    GUEST_NETWORK.guest_ip = "192.168.241.2" ∧
    GUEST_NETWORK.gateway_ip = "192.168.241.1" ∧
    GUEST_NETWORK.netmask = "255.255.255.248" ∧
    GUEST_NETWORK.prefix_len = 29 :=
  ⟨rfl, rfl, rfl, rfl, rfl, rfl⟩

/-- Claim C9, counterexample: at VM exit code 256 the benchmark returns
process exit code 1, which is neither the value converted to a byte
(256 mod 256 = 0) nor a clamp to 255; so the claimed conversion-to-u8 for
values outside 0..=255 does not hold. -/
theorem c9_counterexample :
    benchmark_exit_code 256 = 1 ∧ ((256 : Int) % 256).toNat = 0 ∧
    benchmark_exit_code 256 ≠ ((256 : Int) % 256).toNat ∧
    benchmark_exit_code 256 ≠ 255 := by
  decide

/-- Claim C9, amended: the benchmark process exit code equals the VM
command's exit code whenever that code lies in 0..=255; for any exit code
outside 0..=255 (where u8::try_from fails) the benchmark returns 1. -/
theorem c9_exit_code (v : Int) :
    (0 ≤ v → v ≤ 255 → benchmark_exit_code v = v.toNat) ∧
    ((v < 0 ∨ 255 < v) → benchmark_exit_code v = 1) := by
  unfold benchmark_exit_code u8_try_from
  constructor
  · intro h1 h2
    rw [if_pos ⟨h1, h2⟩]
  · intro h
    rw [if_neg]
    rintro ⟨h1, h2⟩
    rcases h with h | h <;> omega

/-- Witness for c9_exit_code at exit codes 7 and 300. -/
theorem c9_exit_code_witness :
    benchmark_exit_code 7 = 7 ∧ benchmark_exit_code 300 = 1 :=
  ⟨(c9_exit_code 7).1 (by decide) (by decide),
   (c9_exit_code 300).2 (Or.inr (by decide))⟩

/-- Claim C10: unit_name rejects the empty suffix with a Config error, even
though the empty string contains no disallowed character, and every service
subcommand given the empty suffix therefore returns that Config error with
no systemd interaction performed. -/
theorem c10_unit_name_empty :
    unit_name [] = Except.error (RunnerError.Config
      "invalid service name suffix: only alphanumeric, period, dash, underscore allowed") ∧
    ([] : List Char).all allowed_unit_byte = true ∧
    ∀ (cmd : ServiceCommandKind)
      (rest : ServiceCommandKind → List Char → List SysOp × Except RunnerError Unit),
      run_service cmd [] rest =
        ([], Except.error (RunnerError.Config
          "invalid service name suffix: only alphanumeric, period, dash, underscore allowed")) :=
  ⟨rfl, rfl, fun _ _ => rfl⟩

/-- Any run of consecutive successful heartbeat ticks is skipped by the
loop with is_first left false afterwards. -/
theorem hb_ok_run_skip (pre : List HbEvent)
    (h : ∀ ev ∈ pre, ev = HbEvent.tick (Except.ok ())) (l : List HbEvent) :
    heartbeat_loop false (pre ++ l) = heartbeat_loop false l := by
  induction pre with
  | nil => rfl
  | cons x xs ih =>
    have hx := h x (List.mem_cons_self x xs)
    subst hx
    simp only [List.cons_append, heartbeat_loop]
    exact ih fun ev hev => h ev (List.mem_cons_of_mem _ hev)

/-- Claim C5: in heartbeat_loop a failure of the first heartbeat POST
returns a run-terminating Execution error; a failure after at least one
successful heartbeat merely continues the loop; and a successful heartbeat
never ends the loop. -/
theorem c5_heartbeat :
    (∀ (e : AgentError) (rest : List HbEvent),
      heartbeat_loop true (HbEvent.tick (Except.error e) :: rest) =
        some (Except.error (AgentError.Execution
          "Network connectivity check failed - cannot reach API"))) ∧
    (∀ (e : AgentError) (rest : List HbEvent),
      heartbeat_loop false (HbEvent.tick (Except.error e) :: rest) =
        heartbeat_loop false rest) ∧
    (∀ (b : Bool) (rest : List HbEvent),
      heartbeat_loop b (HbEvent.tick (Except.ok ()) :: rest) = heartbeat_loop false rest) ∧
    (∀ (pre rest : List HbEvent) (e : AgentError),
      pre ≠ [] → (∀ ev ∈ pre, ev = HbEvent.tick (Except.ok ())) →
      heartbeat_loop true (pre ++ HbEvent.tick (Except.error e) :: rest) =
        heartbeat_loop false rest) ∧
    (∀ (b : Bool) (pre : List HbEvent),
      (∀ ev ∈ pre, ev = HbEvent.tick (Except.ok ())) → heartbeat_loop b pre = none) := by
  refine ⟨fun e rest => rfl, fun e rest => rfl, fun b rest => rfl, ?_, ?_⟩
  · intro pre rest e hne hok
    match pre, hne with
    | x :: xs, _ =>
      have hx := hok x (List.mem_cons_self x xs)
      subst hx
      simp only [List.cons_append, heartbeat_loop, List.append_eq]
      rw [hb_ok_run_skip xs (fun ev hev => hok ev (List.mem_cons_of_mem _ hev))]
      rfl
  · intro b pre hok
    match pre with
    | [] => rfl
    | x :: xs =>
      have hx := hok x (List.mem_cons_self x xs)
      subst hx
      simp only [heartbeat_loop]
      have := hb_ok_run_skip xs (fun ev hev => hok ev (List.mem_cons_of_mem _ hev)) []
      simpa using this

/-- Witness for c5_heartbeat: one successful heartbeat followed by a
failure continues the loop instead of terminating it. -/
theorem c5_heartbeat_witness :
    heartbeat_loop true
        ([HbEvent.tick (Except.ok ())] ++
          HbEvent.tick (Except.error (AgentError.Http "boom")) :: [HbEvent.cancelled]) =
      heartbeat_loop false [HbEvent.cancelled] :=
  c5_heartbeat.2.2.2.1 [HbEvent.tick (Except.ok ())] [HbEvent.cancelled]
    (AgentError.Http "boom") (by simp)
    (fun ev hev => by simpa using hev)

/-- Claim C2: in the readiness poll, a ConnectionRefused connect error is
retried after a 10 ms sleep, while a connect error of any other kind
(PermissionDenied in particular is not retryable) ends the loop at once
with that error. -/
theorem c2_readiness_poll :
    (∀ rest : List PollAttempt,
      wait_for_ready_phase2
          (PollAttempt.completed (Except.error (ApiError.Connect IoErrorKind.connectionRefused))
            :: rest) =
        (10 :: (wait_for_ready_phase2 rest).1, (wait_for_ready_phase2 rest).2)) ∧
    (∀ (k : IoErrorKind) (rest : List PollAttempt), k ≠ IoErrorKind.connectionRefused →
      wait_for_ready_phase2
          (PollAttempt.completed (Except.error (ApiError.Connect k)) :: rest) =
        ([], some (Except.error (ApiError.Connect k)))) ∧
    is_retryable (ApiError.Connect IoErrorKind.permissionDenied) = false := by
  refine ⟨fun rest => rfl, ?_, rfl⟩
  intro k rest hk
  have hr : is_retryable (ApiError.Connect k) = false := by
    simp [is_retryable, hk]
  simp [wait_for_ready_phase2, hr]

/-- Witness for c2_readiness_poll: a PermissionDenied connect error stops
the poll immediately with that error and no sleep. -/
theorem c2_readiness_poll_witness :
    wait_for_ready_phase2
        [PollAttempt.completed (Except.error (ApiError.Connect IoErrorKind.permissionDenied))] =
      ([], some (Except.error (ApiError.Connect IoErrorKind.permissionDenied))) :=
  c2_readiness_poll.2.1 IoErrorKind.permissionDenied [] (by decide)

/-- Claim C7: reaping the watched pid propagates WEXITSTATUS on normal
exit, 128 + WTERMSIG on signal death, else 1; reaping any other pid yields
no exit code and the scan continues; a nonpositive waitpid result ends the
scan with no exit code; and the blocking wait retries on EINTR, gives up
with 1 on any other errno, and propagates the same code mapping when the
pid is reaped. -/
theorem c7_pid1_reaping :
    (∀ (watched : Int) (status : Nat) (rest : List (Int × Nat)), 0 < watched →
      reap_zombies watched ((watched, status) :: rest) = some (propagate_exit status)) ∧
    (∀ (watched p : Int) (status : Nat) (rest : List (Int × Nat)), 0 < p → p ≠ watched →
      reap_zombies watched ((p, status) :: rest) = reap_zombies watched rest) ∧
    (∀ (watched r : Int) (status : Nat) (rest : List (Int × Nat)), r ≤ 0 →
      reap_zombies watched ((r, status) :: rest) = none) ∧
    (∀ status : Nat, propagate_exit status =
      if WIFEXITED status then (WEXITSTATUS status : Int)
      else if WIFSIGNALED status then 128 + (WTERMSIG status : Int)
      else 1) ∧
    (∀ (pid : Int) (rest : List WaitAttempt),
      wait_blocking pid (WaitAttempt.failure EINTR :: rest) = wait_blocking pid rest) ∧
    (∀ (pid : Int) (errno : Nat) (rest : List WaitAttempt), errno ≠ EINTR →
      wait_blocking pid (WaitAttempt.failure errno :: rest) = some 1) ∧
    (∀ (pid : Int) (status : Nat) (rest : List WaitAttempt),
      wait_blocking pid (WaitAttempt.success status :: rest) = some (propagate_exit status)) := by
  refine ⟨?_, ?_, ?_, fun status => rfl, ?_, ?_, fun pid status rest => rfl⟩
  · intro watched status rest hw
    simp only [reap_zombies]
    rw [if_neg (by omega)]
    simp
  · intro watched p status rest hp hpw
    simp only [reap_zombies]
    rw [if_neg (by omega), if_neg hpw]
  · intro watched r status rest hr
    simp only [reap_zombies]
    rw [if_pos hr]
  · intro pid rest
    simp [wait_blocking]
  · intro pid errno rest he
    simp only [wait_blocking]
    rw [if_pos he]

/-- Witness for c7_pid1_reaping: the watched pid 2 exiting with status
word 2304 (exit code 9) is propagated; an orphan pid 5 is skipped; a
non-EINTR errno makes the blocking wait give up with 1. -/
theorem c7_pid1_reaping_witness :
    reap_zombies 2 [(2, 2304)] = some (propagate_exit 2304) ∧
    reap_zombies 2 [(5, 0), (0, 0)] = reap_zombies 2 [(0, 0)] ∧
    wait_blocking 2 [WaitAttempt.failure 3] = some 1 :=
  ⟨c7_pid1_reaping.1 2 2304 [] (by decide),
   c7_pid1_reaping.2.1 2 5 0 [(0, 0)] (by decide) (by decide),
   c7_pid1_reaping.2.2.2.2.2.1 2 3 [] (by decide)⟩

/-- Claim C4: when the prepare response has existing = true, the network
trace of create_snapshot is exactly one POST /storages/prepare followed by
exactly one POST /storages/commit, with no S3 PUT; the result carries the
prepare response's versionId when the commit response's success is
strictly true, and is a Checkpoint error for any other success value. -/
theorem c4_dedup_commit (p : PrepareResponse) (vid : String)
    (dedup : Option (Except String CommitResponse)) (aok : Bool)
    (aput mput : Except AgentError Unit) (fc : PostJsonOutcome CommitResponse)
    (hex : p.existing = some true) (hvid : p.version_id = some vid) :
    (create_snapshot (Except.ok (some (Except.ok p))) (Except.ok dedup)
        aok aput mput fc).1 = [NetOp.postPrepare, NetOp.postCommit] ∧
    (create_snapshot (Except.ok (some (Except.ok p))) (Except.ok dedup)
        aok aput mput fc).1.count NetOp.postCommit = 1 ∧
    NetOp.putArchive ∉ (create_snapshot (Except.ok (some (Except.ok p))) (Except.ok dedup)
        aok aput mput fc).1 ∧
    NetOp.putManifest ∉ (create_snapshot (Except.ok (some (Except.ok p))) (Except.ok dedup)
        aok aput mput fc).1 ∧
    (commit_success dedup = some true →
      (create_snapshot (Except.ok (some (Except.ok p))) (Except.ok dedup)
          aok aput mput fc).2 = Except.ok { version_id := vid }) ∧
    (commit_success dedup ≠ some true →
      (create_snapshot (Except.ok (some (Except.ok p))) (Except.ok dedup)
          aok aput mput fc).2 =
        Except.error (AgentError.Checkpoint "Failed to update HEAD")) := by
  simp only [create_snapshot, hvid, hex, Option.getD_some, if_true]
  by_cases hcs : commit_success dedup = some true <;>
    simp [hcs]

/-- Witness for c4_dedup_commit: prepare response with versionId v-1 and
existing = true followed by a successful commit yields
SnapshotResult v-1. -/
theorem c4_dedup_commit_witness :
    (create_snapshot
        (Except.ok (some (Except.ok
          { version_id := some "v-1", existing := some true, uploads := none })))
        (Except.ok (some (Except.ok { success := some true })))
        true (Except.ok ()) (Except.ok ()) (Except.ok none)).2 =
      Except.ok { version_id := "v-1" } :=
  (c4_dedup_commit
      { version_id := some "v-1", existing := some true, uploads := none } "v-1"
      (some (Except.ok { success := some true })) true (Except.ok ()) (Except.ok ())
      (Except.ok none) rfl rfl).2.2.2.2.1 rfl

/-- Characterisation of the gc_dir scan: a candidate is recorded exactly
for the entries whose lock probe succeeded, carrying that entry's
dir_stats size and mtime. -/
theorem mem_scan_candidates {entries : List DirEntry} {c : GcCandidate} :
    c ∈ scan_candidates entries ↔
      ∃ e ∈ entries, e.lock = LockState.free ∧
        c = { hash := e.hash, size := (dir_stats e.content).1,
              mtime := (dir_stats e.content).2 } := by
  unfold scan_candidates
  rw [List.mem_filterMap]
  constructor
  · rintro ⟨e, he, hfe⟩
    refine ⟨e, he, ?_⟩
    cases hl : e.lock <;> rw [hl] at hfe <;> simp [probe_lock] at hfe
    exact ⟨rfl, hfe.symm⟩
  · rintro ⟨e, he, hfree, rfl⟩
    exact ⟨e, he, by rw [hfree]; rfl⟩

/-- Claim C1: a content-hash directory whose lock is held by another
process (shared or exclusive) has its nonblocking exclusive probe answer
Held (the EWOULDBLOCK branch) and is never deleted by gc_dir; conversely
every deleted directory had a free lock whose exclusive probe succeeded,
and its trace shows the acquisition before the deletion and the release
only after the deletion. -/
theorem c1_gc_lock_gate (entries : List DirEntry) (keep_latest : Option Nat) (dry_run : Bool) :
    (∀ e ∈ entries, e.lock = LockState.heldShared ∨ e.lock = LockState.heldExclusive →
      probe_lock e.lock = LockProbe.held ∧
      GcEvent.skipHeld e.hash ∈ (gc_dir entries keep_latest dry_run).trace ∧
      ((entries.map DirEntry.hash).Nodup →
        e.hash ∉ (gc_dir entries keep_latest dry_run).deleted)) ∧
    (∀ h ∈ (gc_dir entries keep_latest dry_run).deleted,
      (∃ e ∈ entries, e.hash = h ∧ e.lock = LockState.free ∧
        probe_lock e.lock = LockProbe.freeAcquired) ∧
      ∃ l1 l2 l3 l4, (gc_dir entries keep_latest dry_run).trace =
        l1 ++ GcEvent.acquire h :: (l2 ++ GcEvent.deleteDir h :: (l3 ++ GcEvent.release h :: l4))) := by
  constructor
  · intro e he hheld
    refine ⟨?_, ?_, ?_⟩
    · rcases hheld with h | h <;> rw [h] <;> rfl
    · have hskip : GcEvent.skipHeld e.hash ∈ entries.map (fun e =>
          match probe_lock e.lock with
          | LockProbe.freeAcquired => GcEvent.acquire e.hash
          | LockProbe.held => GcEvent.skipHeld e.hash
          | LockProbe.probeFailed _ => GcEvent.skipErr e.hash) :=
        List.mem_map.mpr ⟨e, he, by rcases hheld with h | h <;> rw [h] <;> rfl⟩
      simp only [gc_dir]
      exact List.mem_append_left _ (List.mem_append_left _ (List.mem_append_left _ hskip))
    · intro hnd hmem
      simp only [gc_dir] at hmem
      by_cases hdr : dry_run = true
      · rw [if_pos hdr] at hmem
        simp at hmem
      · rw [if_neg hdr] at hmem
        obtain ⟨c, hcv, hch⟩ := List.mem_map.mp hmem
        have hcs : c ∈ scan_candidates entries :=
          List.mem_mergeSort.mp (List.drop_subset _ _ hcv)
        obtain ⟨e2, he2, hfree2, rfl⟩ := mem_scan_candidates.mp hcs
        have he2e : e2 = e := List.inj_on_of_nodup_map hnd he2 he hch
        rw [he2e] at hfree2
        rcases hheld with h | h <;> rw [h] at hfree2 <;> cases hfree2
  · intro h hmem
    simp only [gc_dir] at hmem ⊢
    by_cases hdr : dry_run = true
    · rw [if_pos hdr] at hmem
      simp at hmem
    · rw [if_neg hdr] at hmem ⊢
      obtain ⟨c, hcv, hch⟩ := List.mem_map.mp hmem
      have hcsorted : c ∈ (scan_candidates entries).mergeSort mtime_desc :=
        List.drop_subset _ _ hcv
      have hcs : c ∈ scan_candidates entries := List.mem_mergeSort.mp hcsorted
      obtain ⟨e2, he2, hfree2, hc⟩ := mem_scan_candidates.mp hcs
      have hh : e2.hash = h := by rw [hc] at hch; exact hch
      refine ⟨⟨e2, he2, hh, hfree2, by rw [hfree2]; rfl⟩, ?_⟩
      have hacq : GcEvent.acquire h ∈ entries.map (fun e =>
          match probe_lock e.lock with
          | LockProbe.freeAcquired => GcEvent.acquire e.hash
          | LockProbe.held => GcEvent.skipHeld e.hash
          | LockProbe.probeFailed _ => GcEvent.skipErr e.hash) :=
        List.mem_map.mpr ⟨e2, he2, by rw [hfree2, ← hh]; rfl⟩
      have hdel : GcEvent.deleteDir h ∈
          (((scan_candidates entries).mergeSort mtime_desc).drop (keep_latest.getD 0)).map
            (fun c => GcEvent.deleteDir c.hash) :=
        List.mem_map.mpr ⟨c, hcv, by rw [hc, ← hh]⟩
      have hrel : GcEvent.release h ∈
          ((scan_candidates entries).mergeSort mtime_desc).map
            (fun c => GcEvent.release c.hash) :=
        List.mem_map.mpr ⟨c, hcsorted, by rw [hc, ← hh]⟩
      obtain ⟨s1, t1, hs⟩ := List.append_of_mem hacq
      obtain ⟨s2, t2, hd⟩ := List.append_of_mem hdel
      obtain ⟨s3, t3, hr⟩ := List.append_of_mem hrel
      refine ⟨s1, t1 ++ (((scan_candidates entries).mergeSort mtime_desc).take
          (keep_latest.getD 0)).map (fun c => GcEvent.keep c.hash) ++ s2,
        t2 ++ s3, t3, ?_⟩
      rw [hs, hd, hr]
      simp [List.append_assoc]

/-- Witness for c1_gc_lock_gate: with one shared-locked hash and one free
hash, the probe of the held lock answers Held and the held hash is not in
the deleted list. -/
theorem c1_gc_lock_gate_witness :
    probe_lock LockState.heldShared = LockProbe.held ∧
    "a" ∉ (gc_dir
        [{ hash := "a", lock := LockState.heldShared, content := [FsNode.file 8 100] },
         { hash := "b", lock := LockState.free, content := [FsNode.file 8 50] }]
        none false).deleted :=
  have h := (c1_gc_lock_gate
      [{ hash := "a", lock := LockState.heldShared, content := [FsNode.file 8 100] },
       { hash := "b", lock := LockState.free, content := [FsNode.file 8 50] }]
      none false).1
      { hash := "a", lock := LockState.heldShared, content := [FsNode.file 8 100] }
      (List.mem_cons_self _ _) (Or.inl rfl)
  ⟨h.1, h.2.2 (by decide)⟩

/-- Claim C6: gc_dir sorts the free candidates by mtime descending, keeps
the keep_latest most recent, deletes exactly the rest, frees the sum of
their sizes (each size being the dir_stats st_blocks * 512 total of the
directory's files), and deletes nothing when exactly keep_latest
candidates exist. -/
theorem c6_gc_keep_latest (entries : List DirEntry) (keep : Nat) :
    (∀ c ∈ scan_candidates entries, ∃ e ∈ entries, e.lock = LockState.free ∧
      c.size = du_total e.content ∧ c.mtime = du_latest e.content) ∧
    List.Pairwise (fun a b : GcCandidate => b.mtime ≤ a.mtime)
      ((scan_candidates entries).mergeSort mtime_desc) ∧
    ((scan_candidates entries).mergeSort mtime_desc).Perm (scan_candidates entries) ∧
    (gc_dir entries (some keep) false).deleted =
      (((scan_candidates entries).mergeSort mtime_desc).drop keep).map GcCandidate.hash ∧
    (gc_dir entries (some keep) false).freed =
      ((((scan_candidates entries).mergeSort mtime_desc).drop keep).map GcCandidate.size).sum ∧
    ((scan_candidates entries).length = keep →
      (gc_dir entries (some keep) false).deleted = [] ∧
      (gc_dir entries (some keep) false).freed = 0) := by
  refine ⟨?_, ?_, List.mergeSort_perm _ _, rfl, rfl, ?_⟩
  · intro c hc
    obtain ⟨e, he, hfree, rfl⟩ := mem_scan_candidates.mp hc
    exact ⟨e, he, hfree, rfl, rfl⟩
  · have hp := @List.sorted_mergeSort _ mtime_desc
      (fun a b c hab hbc => by
        simp only [mtime_desc, decide_eq_true_eq] at *
        omega)
      (fun a b => by
        simp only [mtime_desc]
        rcases Nat.le_total b.mtime a.mtime with h | h <;> simp [h])
      (scan_candidates entries)
    exact hp.imp fun hab => by
      simpa only [mtime_desc, decide_eq_true_eq] using hab
  · intro hlen
    have hdrop : (((scan_candidates entries).mergeSort mtime_desc).drop keep) = [] := by
      apply List.drop_eq_nil_of_le
      rw [List.length_mergeSort, hlen]
    constructor
    · show (((scan_candidates entries).mergeSort mtime_desc).drop keep).map
          GcCandidate.hash = []
      rw [hdrop]
      rfl
    · show ((((scan_candidates entries).mergeSort mtime_desc).drop keep).map
          GcCandidate.size).sum = 0
      rw [hdrop]
      rfl

/-- Witness for c6_gc_keep_latest: with exactly two free candidates and
keep_latest = 2, nothing is deleted and nothing is freed. -/
theorem c6_gc_keep_latest_witness :
    (gc_dir
        [{ hash := "b", lock := LockState.free, content := [FsNode.file 8 50] },
         { hash := "c", lock := LockState.free, content := [FsNode.file 2 70] }]
        (some 2) false).deleted = [] ∧
    (gc_dir
        [{ hash := "b", lock := LockState.free, content := [FsNode.file 8 50] },
         { hash := "c", lock := LockState.free, content := [FsNode.file 2 70] }]
        (some 2) false).freed = 0 :=
  (c6_gc_keep_latest
      [{ hash := "b", lock := LockState.free, content := [FsNode.file 8 50] },
       { hash := "c", lock := LockState.free, content := [FsNode.file 2 70] }]
      2).2.2.2.2.2 rfl

/-- A successful find_sub means the pattern starts at the returned index. -/
theorem find_sub_starts (pat : List Char) :
    ∀ (s : List Char) (i : Nat), find_sub pat s = some i →
      starts_with pat (s.drop i) = true := by
  intro s
  induction s with
  | nil =>
    intro i h
    unfold find_sub at h
    split at h
    · cases h
      simpa using (by assumption : starts_with pat [] = true)
    · cases h
  | cons c rest ih =>
    intro i h
    unfold find_sub at h
    split at h
    · cases h
      simpa using (by assumption : starts_with pat (c :: rest) = true)
    · obtain ⟨j, hj, rfl⟩ := Option.map_eq_some'.mp h
      simpa using ih j hj

/-- A matching pattern is no longer than the text it matches in. -/
theorem starts_with_length :
    ∀ (pat s : List Char), starts_with pat s = true → pat.length ≤ s.length := by
  intro pat
  induction pat with
  | nil => intro s _; simp
  | cons p ps ih =>
    intro s h
    cases s with
    | nil => simp [starts_with] at h
    | cons c cs =>
      simp only [starts_with, Bool.and_eq_true] at h
      simpa using Nat.succ_le_succ (ih cs h.2)

/-- takeWhile up to the first colon of key ++ colon ++ value is key when
key is colon-free. -/
theorem takeWhile_colon (key value : List Char) (h : ':' ∉ key) :
    (key ++ ':' :: value).takeWhile (fun c => c != ':') = key := by
  induction key with
  | nil => simp [List.takeWhile]
  | cons k ks ih =>
    have hk : (k != ':') = true := by
      simp only [ne_eq, bne_iff_ne]
      intro hkc
      exact h (hkc ▸ List.mem_cons_self k ks)
    simp only [List.cons_append, List.takeWhile_cons, hk, if_true]
    rw [ih fun hm => h (List.mem_cons_of_mem _ hm)]

/-- dropWhile up to the first colon keeps the colon and the value. -/
theorem dropWhile_colon (key value : List Char) (h : ':' ∉ key) :
    (key ++ ':' :: value).dropWhile (fun c => c != ':') = ':' :: value := by
  induction key with
  | nil => simp [List.dropWhile]
  | cons k ks ih =>
    have hk : (k != ':') = true := by
      simp only [ne_eq, bne_iff_ne]
      intro hkc
      exact h (hkc ▸ List.mem_cons_self k ks)
    simp only [List.cons_append, List.dropWhile_cons, hk, if_true]
    exact ih fun hm => h (List.mem_cons_of_mem _ hm)

/-- str::split_once at the first colon of a colon-free key, the colon, and
the value, returns exactly (key, value). -/
theorem split_once_colon_append (key value : List Char) (h : ':' ∉ key) :
    split_once_colon (key ++ ':' :: value) = some (key, value) := by
  unfold split_once_colon
  have hc : (key ++ ':' :: value).contains ':' = true := by
    have hmem : (':' : Char) ∈ key ++ ':' :: value := by simp
    exact List.elem_eq_true_of_mem hmem
  rw [if_pos hc, takeWhile_colon key value h, dropWhile_colon key value h]
  rfl

/-- Correctness of the embedded eq_ignore_ascii_case: it holds exactly
when the two strings agree after ASCII lowercasing. -/
theorem eq_ignore_ascii_case_iff :
    ∀ a b : List Char, eq_ignore_ascii_case a b = true ↔
      a.map to_ascii_lower = b.map to_ascii_lower := by
  intro a
  induction a with
  | nil =>
    intro b
    cases b <;> simp [eq_ignore_ascii_case]
  | cons x xs ih =>
    intro b
    cases b with
    | nil => simp [eq_ignore_ascii_case]
    | cons y ys =>
      simp only [eq_ignore_ascii_case, Bool.and_eq_true, beq_iff_eq, List.map_cons,
        List.cons.injEq]
      exact and_congr Iff.rfl (ih ys)

/-- ASCII lowercasing fixes the literal content-length key. -/
theorem cl_key_lower : cl_key.map to_ascii_lower = cl_key := by decide

/-- Claim C3, part A as an unconditional lemma about the per-line scan:
a header line whose key equals content-length up to ASCII case (and is
colon-free and trimmed) is matched, and the trimmed value is parsed. -/
theorem line_content_length_match (key value : List Char) (hcf : ':' ∉ key)
    (htrim : trim_chars key = key) (hcase : key.map to_ascii_lower = cl_key) :
    line_content_length (key ++ ':' :: value) =
      parse_unsigned (trim_chars value) USIZE_MAX := by
  unfold line_content_length
  rw [split_once_colon_append key value hcf]
  show (if eq_ignore_ascii_case (trim_chars key) cl_key = true then
      parse_unsigned (trim_chars value) USIZE_MAX else none) =
    parse_unsigned (trim_chars value) USIZE_MAX
  rw [htrim]
  have h2 : eq_ignore_ascii_case key cl_key = true := by
    rw [eq_ignore_ascii_case_iff, cl_key_lower, hcase]
  rw [h2]
  rfl

/-- Claim C3: for every response stream whose buffered prefix contains the
header terminator, the returned 2xx body is exactly the Content-Length
bytes following the terminator (the status having been parsed from bytes
9..12 by status_of and Content-Length case-insensitively by
content_length_of); the Content-Length key match is genuinely
case-insensitive, i.e. invariant under ASCII case. -/
theorem c3_response_framing :
    (∀ (stream : List Char) (m he cl : Nat),
      m ≤ stream.length →
      find_sub crlf2 (stream.take m) = some he →
      cl = content_length_of (stream.take m) →
      he + 4 + cl ≤ stream.length →
      200 ≤ status_of (stream.take m) →
      status_of (stream.take m) < 300 →
      request_parse stream m = Except.ok ((stream.drop (he + 4)).take cl)) ∧
    (∀ (key value : List Char), ':' ∉ key → trim_chars key = key →
      key.map to_ascii_lower = cl_key →
      line_content_length (key ++ ':' :: value) =
        parse_unsigned (trim_chars value) USIZE_MAX) ∧
    (∀ a b : List Char, eq_ignore_ascii_case a b = true ↔
      a.map to_ascii_lower = b.map to_ascii_lower) := by
  refine ⟨?_, line_content_length_match, eq_ignore_ascii_case_iff⟩
  intro stream m he cl hm hfind hcl hlen h200 h300
  have hbuflen : (stream.take m).length = m := by
    rw [List.length_take]
    omega
  have hsw := find_sub_starts crlf2 (stream.take m) he hfind
  have h4 : crlf2.length ≤ ((stream.take m).drop he).length :=
    starts_with_length _ _ hsw
  have hcrlen : crlf2.length = 4 := rfl
  rw [List.length_drop, hbuflen, hcrlen] at h4
  have hhe4 : he + 4 ≤ m := by omega
  have hhe : header_end_of (stream.take m) = he := by
    unfold header_end_of
    rw [hfind]
    rfl
  simp only [request_parse, hhe, ← hcl]
  by_cases hcl0 : 0 < cl
  · rw [if_pos hcl0]
    by_cases hread : (stream.take m).length - (he + 4) < cl
    · rw [if_pos hread]
      rw [hbuflen] at hread
      have hnored : ¬ (stream.length <
          (stream.take m).length + (cl - ((stream.take m).length - (he + 4)))) := by
        rw [hbuflen]
        omega
      rw [if_neg hnored]
      have hlen2 : (stream.take m).length + (cl - ((stream.take m).length - (he + 4))) =
          he + 4 + cl := by
        rw [hbuflen]
        omega
      rw [hlen2]
      have hb2len : (stream.take (he + 4 + cl)).length = he + 4 + cl := by
        rw [List.length_take]
        omega
      rw [if_pos (by rw [hb2len])]
      have hbody : ((stream.take (he + 4 + cl)).drop (he + 4)).take cl =
          (stream.drop (he + 4)).take cl := by
        rw [List.drop_take, List.take_take]
        congr 1
        omega
      rw [hbody]
      unfold http_finish
      rw [if_pos ⟨h200, h300⟩]
    · rw [if_neg hread]
      rw [hbuflen] at hread
      have hfit : he + 4 + cl ≤ (stream.take m).length := by
        rw [hbuflen]
        omega
      rw [if_pos hfit]
      have hbody : ((stream.take m).drop (he + 4)).take cl =
          (stream.drop (he + 4)).take cl := by
        rw [List.drop_take, List.take_take]
        congr 1
        omega
      rw [hbody]
      unfold http_finish
      rw [if_pos ⟨h200, h300⟩]
  · rw [if_neg hcl0]
    have hcl' : cl = 0 := by omega
    unfold http_finish
    rw [if_pos ⟨h200, h300⟩, hcl']
    rfl

/-- Witness for c3_response_framing: a 200 response with a mixed-case
Content-Length header and a partially buffered body parses to exactly the
five declared body bytes. -/
theorem c3_response_framing_witness :
    request_parse "HTTP/1.1 200 OK\r\nConTenT-LengtH: 5\r\n\r\nhello!!".toList 40 =
      Except.ok (("HTTP/1.1 200 OK\r\nConTenT-LengtH: 5\r\n\r\nhello!!".toList.drop
        (34 + 4)).take 5) :=
  c3_response_framing.1 "HTTP/1.1 200 OK\r\nConTenT-LengtH: 5\r\n\r\nhello!!".toList
    40 34 5 (by decide) (by decide) (by decide) (by decide) (by decide) (by decide)

end VM0
